import Mathlib

/-!
Verification of the body-replication spreadsheet pipeline (src/main.py).

The script is a single linear pandas/openpyxl pipeline.  We embed it
shallowly: a DataFrame is a column-major `Table` of optional cell values
(`none` models a NaN cell), pandas and openpyxl library calls are embedded
with their documented semantics at the call sites used by the script, and
the fallible pipeline is a function into `Except String`.

Library semantics embedded here (each noted again at its definition):
  - `astype(str)` stringifies a cell: NaN becomes "nan", integers use
    decimal notation, strings are unchanged (`strForm`).
  - `Series.replace(old, new)` is whole-cell replacement, not substring.
  - `groupby(k).first()` keeps within-group original row order and takes
    the first non-null value of each group; null keys are dropped.
  - `set_index(c)` raises a KeyError naming `c` when the column is absent.
  - `dict` construction from a pandas index lets the last duplicate key win.
  - `openpyxl.Workbook.create_sheet(title)` appends a numeric suffix when
    a sheet with that title already exists (avoid_duplicate_name).
-/

/-- A spreadsheet / DataFrame cell value.  The script only ever compares
cells through their `str()` form, so strings and machine integers cover the
cases the pipeline distinguishes. -/
inductive Value where
  | vStr (s : String)
  | vInt (n : Int)
deriving DecidableEq, Repr

/-- Python `str()` of a cell, as produced by `astype(str)`: a NaN cell
(`none`) prints as "nan", integers in decimal, strings unchanged. -/
def strForm : Option Value → String
  | some (Value.vStr s) => s
  | some (Value.vInt n) => toString n
  | none => "nan"

/-- Python truthiness of a cell value: empty string and zero are falsy. -/
def truthy : Value → Bool
  | Value.vStr s => !s.isEmpty
  | Value.vInt n => n != 0

/-- A DataFrame, column-major: `cols` are the column labels, `colData` the
column contents in the same order. -/
structure Table where
  cols : List String
  colData : List (List (Option Value))
deriving DecidableEq, Repr

/-- The column at position `i` (empty when out of range). -/
def colAt (t : Table) (i : Nat) : List (Option Value) :=
  t.colData.getD i []

/-- `[col for col in main_df.columns if col.startswith('Key')]`
(case-sensitive prefix test, spelled out on the character lists). -/
def keyColumns (t : Table) : List String :=
  t.cols.filter (fun c => List.isPrefixOf "Key".toList c.toList)

/-- One logged replacement:
`{'row': row_idx + 2, 'column': get_loc(col) + 1, 'column_name': col,
  'old_value': old, 'new_value': new}`. -/
structure ReplacementRecord where
  row : Nat
  column : Nat
  column_name : String
  old_value : String
  new_value : String
deriving DecidableEq, Repr

/-- The effect of `main_df_copy[col].astype(str).replace(old, new)` on one
cell: the whole column is stringified, and a cell is rewritten to `new`
exactly when its string form equals `old` (whole-cell match). -/
def replaceVal (o n : String) (v : Option Value) : Option Value :=
  if strForm v == o then some (Value.vStr n) else some (Value.vStr (strForm v))

/-- The log entries appended for one (pair, column) iteration: one record
per row whose string form equals `old`, in row order. -/
def colLog (col : List (Option Value)) (i : Nat) (c o n : String) :
    List ReplacementRecord :=
  (List.range col.length).filterMap (fun k =>
    if strForm (col.getD k none) == o then
      some ⟨k + 2, i + 1, c, o, n⟩
    else none)

/-- One iteration of the replacement loop body (src/main.py lines 148-159)
for a single pair `(o, n)` and column name `c`:
`mask = main_df_copy[col].astype(str) == old_value; if mask.any(): ...`.
When no cell matches, neither the column nor the log changes; when some
cell matches, the log grows and the whole column is stringified with the
matching cells replaced. -/
def applyPairCol (o n c : String) (st : Table × List ReplacementRecord) :
    Table × List ReplacementRecord :=
  match st.1.cols.findIdx? (fun x => x == c) with
  | none => st
  | some i =>
    let col := colAt st.1 i
    if col.any (fun v => strForm v == o) then
      ({ st.1 with colData := st.1.colData.set i (col.map (replaceVal o n)) },
        st.2 ++ colLog col i c o n)
    else st

/-- The same column transformation, column-local view (used to state the
per-column consequences of the loop). -/
def stepColVals (o n : String) (col : List (Option Value)) :
    List (Option Value) :=
  if col.any (fun v => strForm v == o) then col.map (replaceVal o n) else col

/-- The substitution engine (src/main.py lines 140-159):
`main_df_copy = main_df.copy(); for old, new in replace_pairs: for col in
key_columns: ...`, returning the modified copy and the replacement log. -/
def substitute (t : Table) (pairs : List (String × String)) :
    Table × List ReplacementRecord :=
  pairs.foldl
    (fun st p =>
      (keyColumns t).foldl (fun st2 c => applyPairCol p.1 p.2 c st2) st)
    (t, [])

/-- A row of the normalized abbreviation table: the loader renames the
first three columns to code / variation / description.  `none` is a NaN
cell.  (Columns beyond the third play no role in the pipeline.) -/
structure AbbrRow where
  code : Option Value
  variation : Option Value
  description : Option Value
deriving DecidableEq, Repr

def s3Variation : String := "s3"

def s2Variation : String := "s2"

/-- `abbr_df.dropna(how='all')`: discard rows whose cells are all NaN. -/
def dropEmpty (rows : List AbbrRow) : List AbbrRow :=
  rows.filter (fun r =>
    !(r.code == none && r.variation == none && r.description == none))

/-- Substring test on code-point lists (used for pandas `str.contains`). -/
def listInfixCheck (pat : List Nat) : List Nat → Bool
  | [] => pat.isEmpty
  | a :: t => List.isPrefixOf pat (a :: t) || listInfixCheck pat t

/-- Lower-cased code point of a character (ASCII folding, which covers the
tags and variation strings this pipeline compares case-insensitively). -/
def lowerCode (c : Char) : Nat :=
  if 65 ≤ c.toNat && c.toNat ≤ 90 then c.toNat + 32 else c.toNat

/-- Case-insensitive substring test, as in
`str.contains(tag, case=False)`. -/
def containsCI (hay pat : String) : Bool :=
  listInfixCheck (pat.toList.map lowerCode) (hay.toList.map lowerCode)

/-- Row filter `abbr_df['variation'].str.contains(tag, case=False,
na=False)` after `astype(str)` (so a NaN variation reads "nan"). -/
def variationMatches (tag : String) (r : AbbrRow) : Bool :=
  containsCI (strForm r.variation) tag

/-- `s3_df.groupby('code').first()['description']` looked up at code `c`:
pandas groupby preserves the original row order inside each group and
`.first()` takes the first non-null value of the group (null keys are
dropped; a missing or all-null group yields `None` via `dict.get`). -/
def codeToDesc (rows : List AbbrRow) (c : Value) : Option Value :=
  (rows.filter (fun r => r.code == some c)).findSome? (fun r => r.description)

/-- `code_to_desc.get(code)` for a raw (possibly NaN) code value: groupby
drops null keys, so `get(nan)` is `None`. -/
def getDesc (rows : List AbbrRow) (code : Option Value) : Option Value :=
  match code with
  | some c => codeToDesc rows c
  | none => none

/-- `Series.unique()`: values in order of first appearance (NaN kept). -/
def uniqueList (l : List (Option Value)) : List (Option Value) :=
  l.foldl (fun acc v => if acc.contains v then acc else acc ++ [v]) []

def requiredMappingCols : List String := ["Description", "ProductModelID"]

/-- The columns of `required_mapping_cols` absent from the mapping table
(schema validation, src/main.py lines 59-62). -/
def missingMappingCols (mt : Table) : List String :=
  requiredMappingCols.filter (fun c => !(mt.cols.contains c))

/-- `mapping_df.set_index('ModelNumber')['ProductModelID'].astype(str)
.to_dict()` (src/main.py line 93).  The dictionary is keyed by the raw
values of the ModelNumber column - not the Description column - and maps
them to the stringified ProductModelID of the same row.  When the
ModelNumber column is absent, pandas `set_index` raises
KeyError("None of ['ModelNumber'] are in the columns"), which the script
does not catch. -/
def buildDescToNumber (mt : Table) :
    Except String (List (Option Value × String)) :=
  match mt.cols.findIdx? (fun x => x == "ModelNumber") with
  | none => Except.error "None of [\x27ModelNumber\x27] are in the columns"
  | some i =>
    match mt.cols.findIdx? (fun x => x == "ProductModelID") with
    | none => Except.error "\x27ProductModelID\x27"
    | some j => Except.ok (List.zip (colAt mt i) ((colAt mt j).map strForm))

/-- Python dict lookup over the entries above; duplicate keys were
overwritten in insertion order, so the last entry for a key wins. -/
def dictLookup (d : List (Option Value × String)) (k : Option Value) :
    Option String :=
  ((d.filter (fun e => e.1 == k)).getLast?).map (fun e => e.2)

/-- `if desc and desc in desc_to_number: desc_to_number[desc]` - a miss
(`none`) when the description is `None`, falsy, or not a dictionary key. -/
def resolveDesc (d : List (Option Value × String)) (od : Option Value) :
    Option String :=
  match od with
  | some v => if truthy v then dictLookup d (some v) else none
  | none => none

/-- The pair-building loop (src/main.py lines 96-114): for each distinct
s2 code, resolve its s2 description and then its s3 description through
the dictionary; a pair is appended only when both resolve, otherwise the
missing counter is incremented.  Returns (replace_pairs, missing_count). -/
def buildReplacePairs (s2rows s3rows : List AbbrRow)
    (d : List (Option Value × String)) : List (String × String) × Nat :=
  (uniqueList (s2rows.map (fun r => r.code))).foldl
    (fun acc code =>
      match resolveDesc d (getDesc s2rows code) with
      | some s2n =>
        match resolveDesc d (getDesc s3rows code) with
        | some s3n => (acc.1 ++ [(s2n, s3n)], acc.2)
        | none => (acc.1, acc.2 + 1)
      | none => (acc.1, acc.2 + 1))
    ([], 0)

/-- Number of data rows of a DataFrame (length of its first column). -/
def nRows (t : Table) : Nat := (t.colData.headD []).length

/-- `main_df_copy.values.tolist()`: the data rows, row-major. -/
def tableRows (t : Table) : List (List (Option Value)) :=
  (List.range (nRows t)).map (fun r => t.colData.map (fun col => col.getD r none))

/-- The header row written first: the column labels as string cells. -/
def headerRow (t : Table) : List (Option Value) :=
  t.cols.map (fun c => some (Value.vStr c))

/-- `data = [main_df_copy.columns.tolist()] + main_df_copy.values.tolist()`,
written cell by cell into the fresh sheet. -/
def sheetData (t : Table) : List (List (Option Value)) :=
  headerRow t :: tableRows t

/-- A workbook: named sheets in order, each a row-major grid of cells.
(Cell styling is outside this value-level model.) -/
structure Workbook where
  sheets : List (String × List (List (Option Value)))
deriving DecidableEq, Repr

def mainSheetName : String := "ProductModelPickOptions"

/-- openpyxl `avoid_duplicate_name`: a new sheet title that collides
(case-insensitively) with an existing one gets a numeric suffix.  Modelled
for workbooks with no numbered variant of the title already present, where
the suffix chosen is 1. -/
def avoidDuplicateName (names : List String) (v : String) : String :=
  if names.any (fun nm => nm.toList.map lowerCode == v.toList.map lowerCode)
  then v ++ "1" else v

/-- The annotated writer (src/main.py lines 161-188), value level:
`new_sheet = workbook.create_sheet(main_sheet)` appends a sheet at the end
(renamed by `avoid_duplicate_name`, since the original sheet of that name
still exists), `workbook.remove(original_sheet)` deletes the original, and
the modified data is written into the new sheet.  Loading fails when the
workbook has no sheet named `main_sheet`. -/
def writeOutput (wb : Workbook) (tOut : Table) : Except String Workbook :=
  let names := wb.sheets.map (fun s => s.1)
  if names.contains mainSheetName then
    let newName := avoidDuplicateName names mainSheetName
    Except.ok
      ⟨(wb.sheets.filter (fun s => s.1 != mainSheetName)) ++
        [(newName, sheetData tOut)]⟩
  else Except.error ("Worksheet " ++ mainSheetName ++ " does not exist.")

/-- Everything a successful run produces. -/
structure RunResult where
  replacePairs : List (String × String)
  missingCount : Nat
  mainOut : Table
  log : List ReplacementRecord
  outWb : Workbook
deriving DecidableEq, Repr

/-- The whole pipeline of src/main.py after loading, in source order:
mapping-schema validation (lines 59-62), variation partitioning with the
two fatal empty-partition checks (lines 68-78), the desc_to_number
dictionary (line 93), the pair-building loop with its fatal no-pairs check
(lines 96-118), the substitution engine (lines 140-159) and the writer
(lines 161-192).  Console diagnostics (duplicate-code warnings and the
key-column scanner, which never alter data) are not represented.  `abbrRaw`
is the normalized abbreviation table before `dropna`; `wb` is the openpyxl
view of the main workbook. -/
def runPipeline (abbrRaw : List AbbrRow) (mapping mainT : Table)
    (wb : Workbook) : Except String RunResult :=
  let abbr := dropEmpty abbrRaw
  if missingMappingCols mapping = [] then
    let s3rows := abbr.filter (variationMatches s3Variation)
    if s3rows = [] then
      Except.error
        ("No rows found with \x27" ++ s3Variation ++ "\x27 in variation column.")
    else
      let s2rows := abbr.filter (variationMatches s2Variation)
      if s2rows = [] then
        Except.error
          ("No rows found with \x27" ++ s2Variation ++ "\x27 in variation column.")
      else
        match buildDescToNumber mapping with
        | Except.error e => Except.error e
        | Except.ok dict =>
          let pr := buildReplacePairs s2rows s3rows dict
          if pr.1 = [] then
            Except.error
              ("No replace pairs created for " ++ s2Variation ++ " to " ++
                s3Variation ++ ". Check mappings or descriptions.")
          else
            let sub := substitute mainT pr.1
            match writeOutput wb sub.1 with
            | Except.error e => Except.error e
            | Except.ok owb => Except.ok ⟨pr.1, pr.2, sub.1, sub.2, owb⟩
  else
    Except.error
      ("Missing columns in ./resources/mappings.xlsx: " ++
        String.intercalate ", " (missingMappingCols mapping))

/-- Shorthand for a string cell. -/
def vS (s : String) : Option Value := some (Value.vStr s)

/-! ### Concrete inputs used by the end-to-end theorems -/

/-- The abbreviation rows of the end-to-end scenario. -/
def abbrC1 : List AbbrRow :=
  [⟨vS "A1", vS "s2-east", vS "Widget"⟩,
   ⟨vS "A1", vS "s3-east", vS "Widget Pro"⟩]

/-- The mapping table of the end-to-end scenario: only the two validated
columns Description and ProductModelID. -/
def mapC1 : Table :=
  ⟨["Description", "ProductModelID"],
   [[vS "Widget", vS "Widget Pro"], [vS "100", vS "200"]]⟩

/-- The main table of the end-to-end scenario: one key column holding
"100". -/
def mainC1 : Table := ⟨["KeyModel"], [[vS "100"]]⟩

/-- The main workbook of the end-to-end scenario. -/
def wbC1 : Workbook :=
  ⟨[("ProductModelPickOptions", [[vS "KeyModel"], [vS "100"]])]⟩

/-- A mapping table whose ModelNumber column holds the descriptions, so
the dictionary lookups of the pair-building loop succeed and the run
reaches the writer. -/
def mapC3 : Table :=
  ⟨["Description", "ModelNumber", "ProductModelID"],
   [[vS "Widget", vS "Widget Pro"], [vS "Widget", vS "Widget Pro"],
    [vS "100", vS "200"]]⟩

/-- A mapping table with distinct Description and ModelNumber columns. -/
def mtC2 : Table :=
  ⟨["Description", "ModelNumber", "ProductModelID"],
   [[vS "Widget", vS "Widget Pro"], [vS "M1", vS "M2"], [vS "100", vS "200"]]⟩

/-- C1: on the specified end-to-end input the pipeline does not produce
the pair ("100","200"), rewrite the cell or log a replacement: it aborts
with the uncaught pandas KeyError raised by
`set_index('ModelNumber')` (line 93), because the mapping table of the
scenario has no ModelNumber column - the code keys its
description-to-identifier dictionary on ModelNumber, not Description. -/
theorem c1_pipeline_keyerror :
    runPipeline abbrC1 mapC1 mainC1 wbC1 =
      Except.error "None of [\x27ModelNumber\x27] are in the columns" := by
  rfl

/-- C2: the second-stage lookup dictionary is keyed by the ModelNumber
column, not the Description column.  On a mapping table whose rows are
(Description "Widget", ModelNumber "M1", ProductModelID "100") and
(Description "Widget Pro", ModelNumber "M2", ProductModelID "200"), the
dictionary resolves "M1" but misses the description "Widget", so the
pair-building loop records a miss and emits no pair, even though every
description is present in the Description column. -/
theorem c2_modelnumber_keying :
    buildDescToNumber mtC2 =
        Except.ok [(vS "M1", "100"), (vS "M2", "200")] ∧
      dictLookup [(vS "M1", "100"), (vS "M2", "200")] (vS "Widget") = none ∧
      dictLookup [(vS "M1", "100"), (vS "M2", "200")] (vS "M1") = some "100" ∧
      buildReplacePairs [⟨vS "A1", vS "s2-east", vS "Widget"⟩]
        [⟨vS "A1", vS "s3-east", vS "Widget Pro"⟩]
        [(vS "M1", "100"), (vS "M2", "200")] = ([], 1) := by
  refine ⟨rfl, rfl, rfl, rfl⟩

/-- C3: a successful run does not keep the main sheet name.  Because
`create_sheet(main_sheet)` runs while the original sheet still exists,
openpyxl renames the new sheet "ProductModelPickOptions1"; the original is
then removed, so the saved workbook has no sheet named
"ProductModelPickOptions".  Headers, row count and substituted values are
as expected, but under the suffixed name. -/
theorem c3_sheet_renamed :
    runPipeline abbrC1 mapC3 mainC1 wbC1 =
        Except.ok
          ⟨[("100", "200")], 0, ⟨["KeyModel"], [[vS "200"]]⟩,
            [⟨2, 1, "KeyModel", "100", "200"⟩],
            ⟨[("ProductModelPickOptions1", [[vS "KeyModel"], [vS "200"]])]⟩⟩ ∧
      ∀ res, runPipeline abbrC1 mapC3 mainC1 wbC1 = Except.ok res →
        (res.outWb.sheets.map (fun s => s.1)).contains mainSheetName = false := by
  refine ⟨rfl, ?_⟩
  intro res h
  cases h
  rfl

/-! ### C5: duplicate-code resolution -/

/-- A variation subset in which the first row for code "A" has a NaN
description and the second has "Y". -/
def rowsC5 : List AbbrRow :=
  [⟨vS "A", vS "s2", none⟩, ⟨vS "A", vS "s2", vS "Y"⟩]

/-- C5 is refuted at `rowsC5`: code "A" appears in two rows, the first
row of the subset has description NaN, yet the code-to-description
mapping resolves "A" to "Y" - the description of the second row - because
pandas `groupby(...).first()` takes the first non-null value of the
group, not the first row. -/
theorem c5_counterexample :
    (rowsC5.map (fun r => r.description)).getD 0 none = none ∧
      codeToDesc rowsC5 (Value.vStr "A") = some (Value.vStr "Y") ∧
      codeToDesc rowsC5 (Value.vStr "A") ≠
        (rowsC5.map (fun r => r.description)).getD 0 none := by
  refine ⟨rfl, rfl, by decide⟩

/-- C5 amended: the mappings use first-non-null-wins semantics.  For a
code whose group (the subset rows carrying that code, in original order)
starts with row `r`: if `r`'s description is non-null it wins - so on
all-non-null data, such as (code "A", desc "X") before (code "A",
desc "Y"), the first row wins and "A" maps to "X" - while a null leading
description is skipped in favour of the rest of the group. -/
theorem c5_first_nonnull (rs : List AbbrRow) (c : Value) (r : AbbrRow)
    (l : List AbbrRow)
    (hf : rs.filter (fun x => x.code == some c) = r :: l) :
    (∀ d, r.description = some d → codeToDesc rs c = some d) ∧
      (r.description = none →
        codeToDesc rs c = l.findSome? (fun x => x.description)) := by
  unfold codeToDesc
  rw [hf, List.findSome?_cons]
  constructor
  · intro d hd
    rw [hd]
  · intro hd
    rw [hd]

/-- Witness for C5: on the rows (code "A", desc "X"), (code "A",
desc "Y") the mapping resolves "A" to "X". -/
theorem c5_first_nonnull_witness :
    ([(⟨vS "A", vS "s2", vS "X"⟩ : AbbrRow), ⟨vS "A", vS "s2", vS "Y"⟩].filter
        (fun x => x.code == some (Value.vStr "A")) =
        (⟨vS "A", vS "s2", vS "X"⟩ : AbbrRow) :: [⟨vS "A", vS "s2", vS "Y"⟩]) ∧
      codeToDesc [⟨vS "A", vS "s2", vS "X"⟩, ⟨vS "A", vS "s2", vS "Y"⟩]
        (Value.vStr "A") = some (Value.vStr "X") :=
  ⟨by decide,
    (c5_first_nonnull [⟨vS "A", vS "s2", vS "X"⟩, ⟨vS "A", vS "s2", vS "Y"⟩]
      (Value.vStr "A") ⟨vS "A", vS "s2", vS "X"⟩ [⟨vS "A", vS "s2", vS "Y"⟩]
      (by decide)).1 (Value.vStr "X") rfl⟩

/-! ### C9: the unvalidated ModelNumber dependency -/

/-- A mapping table holding exactly the two validated columns. -/
def mtC9 : Table :=
  ⟨["Description", "ProductModelID"], [[vS "Widget"], [vS "100"]]⟩

/-- C9, as stated, fails at `mtC9`: schema validation passes and building
the dictionary fails, but the pandas KeyError message does name the
missing column - "ModelNumber" occurs in it as a substring - contrary to
the clause that the error does not name the missing column. -/
theorem c9_counterexample :
    missingMappingCols mtC9 = [] ∧
      buildDescToNumber mtC9 =
        Except.error "None of [\x27ModelNumber\x27] are in the columns" ∧
      containsCI "None of [\x27ModelNumber\x27] are in the columns"
        "ModelNumber" = true := by
  refine ⟨rfl, rfl, rfl⟩

/-- A helper: a column label absent from the header list is found by no
`findIdx?` search for it. -/
theorem findIdx_none_of_not_mem (l : List String) (c : String) (h : c ∉ l) :
    l.findIdx? (fun x => x == c) = none := by
  rw [List.findIdx?_eq_none_iff]
  intro x hx
  simp only [beq_eq_false_iff_ne, ne_eq]
  intro he
  exact h (he ▸ hx)

/-- C9 amended: when the mapping table has the validated columns
Description and ProductModelID but no ModelNumber column, schema
validation passes, and any run that gets past the two variation-partition
checks then aborts while building the description-to-identifier
dictionary with the uncaught pandas KeyError - whose message, however,
does name the missing ModelNumber column (it is just not the schema
validator's "Missing columns" error). -/
theorem c9_hidden_dependency (abbrRaw : List AbbrRow) (mapping mainT : Table)
    (wb : Workbook)
    (hD : "Description" ∈ mapping.cols) (hP : "ProductModelID" ∈ mapping.cols)
    (hM : "ModelNumber" ∉ mapping.cols)
    (h3 : (dropEmpty abbrRaw).filter (variationMatches s3Variation) ≠ [])
    (h2 : (dropEmpty abbrRaw).filter (variationMatches s2Variation) ≠ []) :
    missingMappingCols mapping = [] ∧
      runPipeline abbrRaw mapping mainT wb =
        Except.error "None of [\x27ModelNumber\x27] are in the columns" := by
  have hDb : mapping.cols.contains "Description" = true := by simpa using hD
  have hPb : mapping.cols.contains "ProductModelID" = true := by simpa using hP
  have hmiss : missingMappingCols mapping = [] := by
    simp only [missingMappingCols, requiredMappingCols]
    simp
    exact ⟨hD, hP⟩
  have hbuild : buildDescToNumber mapping =
      Except.error "None of [\x27ModelNumber\x27] are in the columns" := by
    unfold buildDescToNumber
    rw [findIdx_none_of_not_mem _ _ hM]
  refine ⟨hmiss, ?_⟩
  unfold runPipeline
  simp only [hmiss, if_neg h3, if_neg h2, hbuild]
  simp

/-- Witness for C9 amended, at a concrete table and abbreviation list. -/
theorem c9_hidden_dependency_witness :
    ("Description" ∈ mtC9.cols ∧ "ProductModelID" ∈ mtC9.cols ∧
        "ModelNumber" ∉ mtC9.cols ∧
        (dropEmpty abbrC1).filter (variationMatches s3Variation) ≠ [] ∧
        (dropEmpty abbrC1).filter (variationMatches s2Variation) ≠ []) ∧
      missingMappingCols mtC9 = [] ∧
      runPipeline abbrC1 mtC9 mainC1 wbC1 =
        Except.error "None of [\x27ModelNumber\x27] are in the columns" :=
  ⟨by refine ⟨by decide, by decide, by decide, by decide, by decide⟩,
    c9_hidden_dependency abbrC1 mtC9 mainC1 wbC1 (by decide) (by decide)
      (by decide) (by decide) (by decide)⟩

/-! ### Generic fold and list helpers -/

/-- A fold whose every step fixes the accumulator returns it unchanged. -/
theorem pipeFoldlFixed {α β : Type} (f : β → α → β) (b : β) (l : List α)
    (h : ∀ x ∈ l, f b x = b) : l.foldl f b = b := by
  induction l with
  | nil => rfl
  | cons a t ih =>
    rw [List.foldl_cons, h a (List.mem_cons_self a t)]
    exact ih (fun x hx => h x (List.mem_cons_of_mem a hx))

/-- A property preserved by every step of a fold holds of its result. -/
theorem pipeFoldlPreserve {α β : Type} (P : β → Prop) (f : β → α → β)
    (l : List α) :
    ∀ b, (∀ s x, x ∈ l → P s → P (f s x)) → P b → P (l.foldl f b) := by
  induction l with
  | nil => intro b _ hb; exact hb
  | cons a t ih =>
    intro b hstep hb
    rw [List.foldl_cons]
    exact ih (f b a) (fun s x hx hs => hstep s x (List.mem_cons_of_mem a hx) hs)
      (hstep b a (List.mem_cons_self a t) hb)

/-- `getD` after `set` at the written (in-range) position. -/
theorem pipeGetDSetSelf {α : Type} (l : List α) (i : Nat) (a d : α)
    (h : i < l.length) : (l.set i a).getD i d = a := by
  simp [List.getD, List.getElem?_set_self, h]

/-- `getD` after `set` at any other position. -/
theorem pipeGetDSetNe {α : Type} (l : List α) (i j : Nat) (a d : α)
    (h : i ≠ j) : (l.set i a).getD j d = l.getD j d := by
  simp [List.getD, List.getElem?_set_ne h]

/-- A `getD` that differs from the default was in range. -/
theorem pipeLtOfGetDNe {α : Type} (l : List α) (d : α) (i : Nat)
    (h : l.getD i d ≠ d) : i < l.length := by
  by_contra hc
  push_neg at hc
  rw [List.getD_eq_default] at h
  · exact h rfl
  · exact hc

/-! ### Facts about one replacement step -/

/-- The string form a cell carries after `replaceVal`: the target when it
matched, its own string form otherwise. -/
theorem strForm_replaceVal (o n : String) (v : Option Value) :
    strForm (replaceVal o n v) = if strForm v = o then n else strForm v := by
  unfold replaceVal
  split
  case isTrue hb => rw [if_pos (eq_of_beq hb)]; rfl
  case isFalse hb =>
    rw [if_neg (fun he => hb (beq_iff_eq.mpr he))]; rfl

/-- The column names are untouched by a replacement step. -/
theorem applyPairCol_cols (o n c : String)
    (st : Table × List ReplacementRecord) :
    (applyPairCol o n c st).1.cols = st.1.cols := by
  unfold applyPairCol
  cases st.1.cols.findIdx? (fun x => x == c) with
  | none => rfl
  | some i =>
    dsimp only
    split <;> rfl

/-- A step for a pair none of whose source matches the addressed column
changes nothing at all (no mask hit: no assignment, no log entry). -/
theorem applyPairCol_fixed (o n c : String)
    (st : Table × List ReplacementRecord)
    (h : ∀ i, st.1.cols.findIdx? (fun x => x == c) = some i →
      ∀ v ∈ colAt st.1 i, strForm v ≠ o) :
    applyPairCol o n c st = st := by
  unfold applyPairCol
  cases hidx : st.1.cols.findIdx? (fun x => x == c) with
  | none => rfl
  | some i =>
    dsimp only
    have hany : (colAt st.1 i).any (fun v => strForm v == o) = false := by
      rw [List.any_eq_false]
      intro v hv
      simpa using h i hidx v hv
    simp [hany]

/-- No key-column cell of `t` has the string form of any source
identifier of `pairs`. -/
def noKeyMatch (t : Table) (pairs : List (String × String)) : Prop :=
  ∀ c ∈ keyColumns t, ∀ i, t.cols.findIdx? (fun x => x == c) = some i →
    ∀ v ∈ colAt t i, ∀ p ∈ pairs, strForm v ≠ p.1

/-- The substitution engine on a table with no matching key-column cell:
identity table, empty log. -/
theorem substitute_of_no_match (t : Table) (pairs : List (String × String))
    (h : noKeyMatch t pairs) : substitute t pairs = (t, []) := by
  unfold substitute
  apply pipeFoldlFixed
  intro p hp
  apply pipeFoldlFixed
  intro c hc
  exact applyPairCol_fixed p.1 p.2 c (t, [])
    (fun i hidx v hv => h c hc i hidx v hv p hp)

/-- No cell of the column has string form `s`. -/
def colAvoids (col : List (Option Value)) (s : String) : Prop :=
  ∀ v ∈ col, strForm v ≠ s

/-- A replacement step whose target differs from `s` keeps any column
free of string form `s`: the step only ever writes the target or a cell's
own string form. -/
theorem applyPairCol_avoid (o n c : String)
    (st : Table × List ReplacementRecord) (j : Nat) (s : String)
    (hn : n ≠ s) (h : colAvoids (colAt st.1 j) s) :
    colAvoids (colAt (applyPairCol o n c st).1 j) s := by
  unfold applyPairCol
  cases hidx : st.1.cols.findIdx? (fun x => x == c) with
  | none => exact h
  | some i =>
    dsimp only
    split
    case isFalse hany => exact h
    case isTrue hany =>
      by_cases hij : i = j
      · subst hij
        have hne : colAt st.1 i ≠ [] := by
          intro he
          rw [he] at hany
          simp at hany
        have hlen : i < st.1.colData.length := pipeLtOfGetDNe _ _ _ hne
        intro v hv
        rw [show colAt { st.1 with
              colData := st.1.colData.set i ((colAt st.1 i).map (replaceVal o n)) } i
            = (colAt st.1 i).map (replaceVal o n) from
            pipeGetDSetSelf _ _ _ _ hlen] at hv
        obtain ⟨w, hw, rfl⟩ := List.mem_map.1 hv
        rw [strForm_replaceVal]
        split
        · exact hn
        · exact h w hw
      · intro v hv
        rw [show colAt { st.1 with
              colData := st.1.colData.set i ((colAt st.1 i).map (replaceVal o n)) } j
            = colAt st.1 j from pipeGetDSetNe _ _ _ _ _ hij] at hv
        exact h v hv

/-- After its own step for pair `(o, n)` with `n ≠ o`, the addressed
column is free of `o`: every matching cell was rewritten to `n`, every
other cell keeps a string form that was not `o`. -/
theorem applyPairCol_cleanse (o n c : String)
    (st : Table × List ReplacementRecord) (i : Nat) (hn : n ≠ o)
    (hidx : st.1.cols.findIdx? (fun x => x == c) = some i) :
    colAvoids (colAt (applyPairCol o n c st).1 i) o := by
  unfold applyPairCol
  rw [hidx]
  dsimp only
  split
  case isTrue hany =>
    have hne : colAt st.1 i ≠ [] := by
      intro he
      rw [he] at hany
      simp at hany
    have hlen : i < st.1.colData.length := pipeLtOfGetDNe _ _ _ hne
    intro v hv
    rw [show colAt { st.1 with
          colData := st.1.colData.set i ((colAt st.1 i).map (replaceVal o n)) } i
        = (colAt st.1 i).map (replaceVal o n) from
        pipeGetDSetSelf _ _ _ _ hlen] at hv
    obtain ⟨w, hw, rfl⟩ := List.mem_map.1 hv
    rw [strForm_replaceVal]
    split
    case isTrue => exact hn
    case isFalse hne2 => exact hne2
  case isFalse hany =>
    simp only [Bool.not_eq_true] at hany
    intro v hv heq
    exact List.any_eq_false.1 hany v hv (beq_iff_eq.mpr heq)

/-- The inner fold over column names never renames columns. -/
theorem innerFold_cols (o n : String) (l : List String) :
    ∀ st : Table × List ReplacementRecord,
      ((l.foldl (fun st2 c => applyPairCol o n c st2) st)).1.cols = st.1.cols := by
  induction l with
  | nil => intro st; rfl
  | cons a t ih =>
    intro st
    rw [List.foldl_cons, ih, applyPairCol_cols]

/-- `applyPairCol_avoid` lifted through the inner fold. -/
theorem innerFold_avoid (o n s : String) (hn : n ≠ s) (l : List String)
    (st : Table × List ReplacementRecord) (j : Nat)
    (h : colAvoids (colAt st.1 j) s) :
    colAvoids
      (colAt ((l.foldl (fun st2 c => applyPairCol o n c st2) st)).1 j) s :=
  pipeFoldlPreserve (fun st2 => colAvoids (colAt st2.1 j) s) _ l st
    (fun s2 x _ hs2 => applyPairCol_avoid o n x s2 j s hn hs2) h

/-- After one pair's pass over the column list, every listed column is
free of that pair's source. -/
theorem innerFold_cleanse (o n : String) (hn : n ≠ o) (l : List String) :
    ∀ (st : Table × List ReplacementRecord) (c : String), c ∈ l →
      ∀ i, st.1.cols.findIdx? (fun x => x == c) = some i →
        colAvoids
          (colAt ((l.foldl (fun st2 c2 => applyPairCol o n c2 st2) st)).1 i) o := by
  induction l with
  | nil => intro st c hc; cases hc
  | cons a t ih =>
    intro st c hc i hidx
    rw [List.foldl_cons]
    rcases List.mem_cons.1 hc with rfl | hct
    · exact innerFold_avoid o n o hn t (applyPairCol o n c st) i
        (applyPairCol_cleanse o n c st i hn hidx)
    · exact ih (applyPairCol o n a st) c hct i
        (by rw [applyPairCol_cols]; exact hidx)

/-- The engine's passes for pairs all of whose targets differ from `s`
keep a column free of `s`. -/
theorem outerFold_avoid_pres (kc : List String) (s : String)
    (pairs : List (String × String)) (st : Table × List ReplacementRecord)
    (j : Nat) (hq : ∀ q ∈ pairs, q.2 ≠ s) (h : colAvoids (colAt st.1 j) s) :
    colAvoids
      (colAt ((pairs.foldl
        (fun st2 q => kc.foldl (fun st3 c => applyPairCol q.1 q.2 c st3) st2)
        st)).1 j) s :=
  pipeFoldlPreserve (fun st2 => colAvoids (colAt st2.1 j) s) _ pairs st
    (fun s2 q hqm hs2 => innerFold_avoid q.1 q.2 s (hq q hqm) kc s2 j hs2) h

/-- After the full run with targets disjoint from sources, every listed
column is free of every source identifier. -/
theorem outerFold_avoid (kc : List String) (pairs : List (String × String)) :
    ∀ st : Table × List ReplacementRecord,
      (∀ p ∈ pairs, ∀ q ∈ pairs, p.2 ≠ q.1) →
      ∀ p ∈ pairs, ∀ c ∈ kc, ∀ i,
        st.1.cols.findIdx? (fun x => x == c) = some i →
        ∀ v ∈ colAt ((pairs.foldl
            (fun st2 q => kc.foldl (fun st3 c2 => applyPairCol q.1 q.2 c2 st3) st2)
            st)).1 i,
          strForm v ≠ p.1 := by
  induction pairs with
  | nil => intro st _ p hp; cases hp
  | cons q rest ih =>
    intro st hfresh p hp c hc i hidx
    rw [List.foldl_cons]
    rcases List.mem_cons.1 hp with rfl | hpr
    · have hq : p.2 ≠ p.1 :=
        hfresh p (List.mem_cons_self _ _) p (List.mem_cons_self _ _)
      exact outerFold_avoid_pres kc p.1 rest
        (kc.foldl (fun st3 c2 => applyPairCol p.1 p.2 c2 st3) st) i
        (fun r hr => hfresh r (List.mem_cons_of_mem _ hr) p (List.mem_cons_self _ _))
        (innerFold_cleanse p.1 p.2 hq kc st c hc i hidx)
    · exact ih (kc.foldl (fun st3 c2 => applyPairCol q.1 q.2 c2 st3) st)
        (fun a ha b hb =>
          hfresh a (List.mem_cons_of_mem _ ha) b (List.mem_cons_of_mem _ hb))
        p hpr c hc i (by rw [innerFold_cols]; exact hidx)

/-- The engine never renames columns. -/
theorem substitute_cols (t : Table) (pairs : List (String × String)) :
    (substitute t pairs).1.cols = t.cols := by
  unfold substitute
  have hgen : ∀ (ps : List (String × String))
      (st : Table × List ReplacementRecord),
      ((ps.foldl
        (fun st2 p => (keyColumns t).foldl
          (fun st3 c => applyPairCol p.1 p.2 c st3) st2)
        st)).1.cols = st.1.cols := by
    intro ps
    induction ps with
    | nil => intro st; rfl
    | cons a r ih =>
      intro st
      rw [List.foldl_cons, ih, innerFold_cols]
  exact hgen pairs (t, [])

/-- C6: no-op round trip.  When no key-column cell's string form equals
any TranslationPair source identifier, the Substitution Engine returns
the main table value-wise unchanged and an empty replacement log. -/
theorem c6_noop_roundtrip (t : Table) (pairs : List (String × String))
    (h : noKeyMatch t pairs) : substitute t pairs = (t, []) :=
  substitute_of_no_match t pairs h

/-- Witness for C6 at a one-key-column table with no matching cell. -/
theorem c6_noop_roundtrip_witness :
    noKeyMatch ⟨["KeyModel"], [[vS "999"]]⟩ [("100", "200")] ∧
      substitute ⟨["KeyModel"], [[vS "999"]]⟩ [("100", "200")] =
        (⟨["KeyModel"], [[vS "999"]]⟩, []) := by
  have hnm : noKeyMatch ⟨["KeyModel"], [[vS "999"]]⟩ [("100", "200")] := by
    intro c hc i hidx v hv p hp
    rw [show keyColumns ⟨["KeyModel"], [[vS "999"]]⟩ = ["KeyModel"] from rfl]
      at hc
    rw [List.mem_singleton] at hc
    subst hc
    rw [show (⟨["KeyModel"], [[vS "999"]]⟩ : Table).cols.findIdx?
        (fun x => x == "KeyModel") = some 0 from rfl] at hidx
    injection hidx with hi
    subst hi
    rw [show colAt ⟨["KeyModel"], [[vS "999"]]⟩ 0 = [vS "999"] from rfl] at hv
    rw [List.mem_singleton] at hv
    subst hv
    rw [List.mem_singleton] at hp
    subst hp
    decide
  exact ⟨hnm, c6_noop_roundtrip _ _ hnm⟩

/-- C7: idempotence.  When no target identifier of the pair set equals
any source identifier of the set, a second Substitution Engine run on the
first run's own output leaves it unchanged and logs nothing. -/
theorem c7_idempotent (t : Table) (pairs : List (String × String))
    (hfresh : ∀ p ∈ pairs, ∀ q ∈ pairs, p.2 ≠ q.1) :
    substitute (substitute t pairs).1 pairs = ((substitute t pairs).1, []) := by
  apply substitute_of_no_match
  intro c hc i hidx v hv p hp
  have hcols : (substitute t pairs).1.cols = t.cols := substitute_cols t pairs
  have hkc : keyColumns (substitute t pairs).1 = keyColumns t := by
    unfold keyColumns
    rw [hcols]
  rw [hkc] at hc
  rw [hcols] at hidx
  exact outerFold_avoid (keyColumns t) pairs (t, []) hfresh p hp c hc i hidx v hv

/-- Witness for C7: a run that rewrites "100" to "200" is idempotent. -/
theorem c7_idempotent_witness :
    (∀ p ∈ [("100", "200")], ∀ q ∈ [("100", "200")],
        Prod.snd p ≠ Prod.fst q) ∧
      substitute (substitute ⟨["KeyModel"], [[vS "100"]]⟩ [("100", "200")]).1
          [("100", "200")] =
        ((substitute ⟨["KeyModel"], [[vS "100"]]⟩ [("100", "200")]).1, []) :=
  ⟨by decide,
    c7_idempotent ⟨["KeyModel"], [[vS "100"]]⟩ [("100", "200")] (by decide)⟩

/-- C4: exact full-cell matching.  In one replacement-loop iteration for
pair `(o, n)` on the key column `c` resolved at index `i`, the output
cell at row `k` carries the target's string form exactly when the input
cell's string form equals `o`, and its own unchanged string form
otherwise; and when no cell of the column matches `o` the iteration
changes nothing at all - in particular a column holding only "1234" is
untouched by a pair with source "123". -/
theorem c4_exact_match (o n c : String) (st : Table × List ReplacementRecord)
    (i k : Nat) (hidx : st.1.cols.findIdx? (fun x => x == c) = some i)
    (hk : k < (colAt st.1 i).length) :
    (strForm ((colAt (applyPairCol o n c st).1 i).getD k none) =
        if strForm ((colAt st.1 i).getD k none) = o then n
        else strForm ((colAt st.1 i).getD k none)) ∧
      ((∀ v ∈ colAt st.1 i, strForm v ≠ o) → applyPairCol o n c st = st) := by
  constructor
  · unfold applyPairCol
    rw [hidx]
    dsimp only
    split
    case isTrue hany =>
      have hne : colAt st.1 i ≠ [] := by
        intro he
        rw [he] at hany
        simp at hany
      have hlen : i < st.1.colData.length := pipeLtOfGetDNe _ _ _ hne
      rw [show colAt { st.1 with
            colData := st.1.colData.set i ((colAt st.1 i).map (replaceVal o n)) } i
          = (colAt st.1 i).map (replaceVal o n) from
          pipeGetDSetSelf _ _ _ _ hlen]
      rw [List.getD_eq_getElem _ _ (by simpa using hk),
        List.getD_eq_getElem _ _ hk, List.getElem_map]
      exact strForm_replaceVal o n _
    case isFalse hany =>
      simp only [Bool.not_eq_true] at hany
      have hmem : (colAt st.1 i).getD k none ∈ colAt st.1 i := by
        rw [List.getD_eq_getElem _ _ hk]
        exact List.getElem_mem hk
      rw [if_neg (fun he =>
        List.any_eq_false.1 hany _ hmem (beq_iff_eq.mpr he))]
  · intro hall
    apply applyPairCol_fixed
    intro i2 hidx2 v hv
    rw [hidx] at hidx2
    injection hidx2 with he
    subst he
    exact hall v hv

/-- Witness for C4: a key column holding only "1234", a pair with source
"123": the cell keeps string form "1234" and the step is a no-op. -/
theorem c4_exact_match_witness :
    ((⟨["KeyModel"], [[vS "1234"]]⟩ : Table).cols.findIdx?
        (fun x => x == "KeyModel") = some 0 ∧
      0 < (colAt ⟨["KeyModel"], [[vS "1234"]]⟩ 0).length) ∧
      (strForm ((colAt (applyPairCol "123" "777" "KeyModel"
          (⟨["KeyModel"], [[vS "1234"]]⟩, [])).1 0).getD 0 none) =
        if strForm ((colAt ⟨["KeyModel"], [[vS "1234"]]⟩ 0).getD 0 none) = "123"
        then "777"
        else strForm ((colAt ⟨["KeyModel"], [[vS "1234"]]⟩ 0).getD 0 none)) ∧
      ((∀ v ∈ colAt ⟨["KeyModel"], [[vS "1234"]]⟩ 0, strForm v ≠ "123") →
        applyPairCol "123" "777" "KeyModel" (⟨["KeyModel"], [[vS "1234"]]⟩, []) =
          (⟨["KeyModel"], [[vS "1234"]]⟩, [])) :=
  ⟨⟨by decide, by decide⟩,
    (c4_exact_match "123" "777" "KeyModel" (⟨["KeyModel"], [[vS "1234"]]⟩, [])
      0 0 (by decide) (by decide)).1,
    (c4_exact_match "123" "777" "KeyModel" (⟨["KeyModel"], [[vS "1234"]]⟩, [])
      0 0 (by decide) (by decide)).2⟩

/-- C8: empty-partition abort.  When the cleaned abbreviation table has
no row whose variation contains "s3" (case-insensitively), the pipeline
returns an error - so no output workbook value is produced - and likewise
when no row's variation contains "s2". -/
theorem c8_empty_partition_abort (abbrRaw : List AbbrRow)
    (mapping mainT : Table) (wb : Workbook) :
    (((dropEmpty abbrRaw).filter (variationMatches s3Variation) = []) →
        ∃ e, runPipeline abbrRaw mapping mainT wb = Except.error e) ∧
      (((dropEmpty abbrRaw).filter (variationMatches s2Variation) = []) →
        ∃ e, runPipeline abbrRaw mapping mainT wb = Except.error e) := by
  constructor
  · intro h3
    unfold runPipeline
    by_cases hm : missingMappingCols mapping = []
    · rw [if_pos hm, if_pos h3]
      exact ⟨_, rfl⟩
    · rw [if_neg hm]
      exact ⟨_, rfl⟩
  · intro h2
    unfold runPipeline
    by_cases hm : missingMappingCols mapping = []
    · rw [if_pos hm]
      by_cases h3 : (dropEmpty abbrRaw).filter (variationMatches s3Variation) = []
      · rw [if_pos h3]
        exact ⟨_, rfl⟩
      · rw [if_neg h3, if_pos h2]
        exact ⟨_, rfl⟩
    · rw [if_neg hm]
      exact ⟨_, rfl⟩

/-- Witness for C8: an abbreviation table with only an s2 row makes the
pipeline abort. -/
theorem c8_empty_partition_abort_witness :
    ((dropEmpty [⟨vS "A1", vS "s2-east", vS "Widget"⟩]).filter
        (variationMatches s3Variation) = []) ∧
      ∃ e, runPipeline [⟨vS "A1", vS "s2-east", vS "Widget"⟩] mapC1 mainC1 wbC1 =
        Except.error e :=
  ⟨by decide,
    (c8_empty_partition_abort [⟨vS "A1", vS "s2-east", vS "Widget"⟩]
      mapC1 mainC1 wbC1).1 (by decide)⟩

/-- A successful `findIdx?` search for a column name lands on an in-range
position holding that name. -/
theorem pipeFindIdxGet (l : List String) (c : String) (i : Nat)
    (h : l.findIdx? (fun x => x == c) = some i) :
    ∃ hlt : i < l.length, l.get ⟨i, hlt⟩ = c := by
  rw [List.findIdx?_eq_some_iff_findIdx_eq] at h
  obtain ⟨hlt, hfi⟩ := h
  subst hfi
  refine ⟨hlt, eq_of_beq ?_⟩
  exact List.findIdx_getElem (w := hlt)

/-- Distinct column names resolve to distinct positions. -/
theorem pipeFindIdxNe (l : List String) (c c2 : String) (i i2 : Nat)
    (hne : c ≠ c2) (h : l.findIdx? (fun x => x == c) = some i)
    (h2 : l.findIdx? (fun x => x == c2) = some i2) : i ≠ i2 := by
  obtain ⟨hlt, hget⟩ := pipeFindIdxGet l c i h
  obtain ⟨hlt2, hget2⟩ := pipeFindIdxGet l c2 i2 h2
  intro he
  subst he
  exact hne (by rw [← hget, ← hget2])

/-- A step addressed at column `c`, resolved at `i`, acts on the column
at `i` exactly as the column-local `stepColVals`. -/
theorem applyPairCol_touch (o n c : String)
    (st : Table × List ReplacementRecord) (i : Nat)
    (hidx : st.1.cols.findIdx? (fun x => x == c) = some i) :
    colAt (applyPairCol o n c st).1 i = stepColVals o n (colAt st.1 i) := by
  unfold applyPairCol stepColVals
  rw [hidx]
  dsimp only
  by_cases hany : (colAt st.1 i).any (fun v => strForm v == o) = true
  · rw [if_pos hany, if_pos hany]
    have hne : colAt st.1 i ≠ [] := by
      intro he
      rw [he] at hany
      simp at hany
    exact pipeGetDSetSelf _ _ _ _ (pipeLtOfGetDNe _ _ _ hne)
  · rw [if_neg hany, if_neg hany]

/-- A step addressed at a column resolving away from `i` leaves the
column at `i` alone. -/
theorem applyPairCol_untouch (o n c : String)
    (st : Table × List ReplacementRecord) (i : Nat)
    (h : ∀ i2, st.1.cols.findIdx? (fun x => x == c) = some i2 → i2 ≠ i) :
    colAt (applyPairCol o n c st).1 i = colAt st.1 i := by
  unfold applyPairCol
  cases hidx : st.1.cols.findIdx? (fun x => x == c) with
  | none => rfl
  | some i2 =>
    dsimp only
    split
    case isFalse _ => rfl
    case isTrue _ => exact pipeGetDSetNe _ _ _ _ _ (h i2 hidx)

/-- One pair's pass over a duplicate-free column-name list acts on the
column of a listed name exactly as one `stepColVals`. -/
theorem innerFold_touch (o n : String) (l : List String) :
    ∀ (st : Table × List ReplacementRecord) (c : String) (i : Nat),
      l.Nodup → c ∈ l →
      st.1.cols.findIdx? (fun x => x == c) = some i →
      colAt ((l.foldl (fun st2 c2 => applyPairCol o n c2 st2) st)).1 i =
        stepColVals o n (colAt st.1 i) := by
  induction l with
  | nil => intro st c i _ hc; cases hc
  | cons a t ih =>
    intro st c i hnd hc hidx
    rw [List.foldl_cons]
    rcases List.mem_cons.1 hc with heq | hct
    · subst heq
      have hpres : ∀ (l2 : List String), (∀ c2 ∈ l2, c2 ≠ c) →
          ∀ st2 : Table × List ReplacementRecord, st2.1.cols = st.1.cols →
          colAt ((l2.foldl (fun s3 c2 => applyPairCol o n c2 s3) st2)).1 i =
            colAt st2.1 i := by
        intro l2
        induction l2 with
        | nil => intro _ st2 _; rfl
        | cons b r ihr =>
          intro hb st2 hcols
          rw [List.foldl_cons]
          rw [ihr (fun x hx => hb x (List.mem_cons_of_mem _ hx)) _
            (by rw [applyPairCol_cols]; exact hcols)]
          apply applyPairCol_untouch
          intro i2 hidx2
          rw [hcols] at hidx2
          exact pipeFindIdxNe st.1.cols b c i2 i
            (hb b (List.mem_cons_self _ _)) hidx2 hidx
      rw [hpres t
        (fun c2 hc2 he => (List.nodup_cons.1 hnd).1 (he ▸ hc2))
        (applyPairCol o n c st) (applyPairCol_cols o n c st)]
      exact applyPairCol_touch o n c st i hidx
    · have hac : a ≠ c := by
        intro he
        subst he
        exact (List.nodup_cons.1 hnd).1 hct
      have h0 : colAt (applyPairCol o n a st).1 i = colAt st.1 i := by
        apply applyPairCol_untouch
        intro i2 hidx2
        exact pipeFindIdxNe st.1.cols a c i2 i hac hidx2 hidx
      rw [ih (applyPairCol o n a st) c i (List.nodup_cons.1 hnd).2 hct
        (by rw [applyPairCol_cols]; exact hidx), h0]

/-- Column decomposition of the engine: with duplicate-free key-column
names, the column of key column `c` after the full run is the fold of the
column-local steps over the pair list. -/
theorem substitute_colAt_decomp (t : Table) (pairs : List (String × String))
    (c : String) (i : Nat) (hnd : (keyColumns t).Nodup)
    (hc : c ∈ keyColumns t)
    (hidx : t.cols.findIdx? (fun x => x == c) = some i) :
    colAt (substitute t pairs).1 i =
      pairs.foldl (fun col p => stepColVals p.1 p.2 col) (colAt t i) := by
  unfold substitute
  have hgen : ∀ (ps : List (String × String))
      (st : Table × List ReplacementRecord), st.1.cols = t.cols →
      colAt ((ps.foldl
        (fun st2 p => (keyColumns t).foldl
          (fun st3 c2 => applyPairCol p.1 p.2 c2 st3) st2)
        st)).1 i =
        ps.foldl (fun col p => stepColVals p.1 p.2 col) (colAt st.1 i) := by
    intro ps
    induction ps with
    | nil => intro st _; rfl
    | cons p rest ihp =>
      intro st hcols
      rw [List.foldl_cons, List.foldl_cons]
      rw [ihp _ (by rw [innerFold_cols]; exact hcols)]
      rw [innerFold_touch p.1 p.2 (keyColumns t) st c i hnd hc
        (by rw [hcols]; exact hidx)]
  exact hgen pairs (t, []) rfl

/-- Every cell of the column is a string cell (the shape `astype(str)`
leaves behind). -/
def allVStr (col : List (Option Value)) : Prop :=
  ∀ v ∈ col, ∃ s, v = some (Value.vStr s)

/-- A column-local step preserves its length. -/
theorem stepColVals_length (o n : String) (col : List (Option Value)) :
    (stepColVals o n col).length = col.length := by
  unfold stepColVals
  split
  · exact List.length_map _ _
  · rfl

/-- A column-local step keeps a fully stringified column stringified. -/
theorem stepColVals_allVStr_pres (o n : String) (col : List (Option Value))
    (h : allVStr col) : allVStr (stepColVals o n col) := by
  unfold stepColVals
  split
  · intro v hv
    obtain ⟨w, _, rfl⟩ := List.mem_map.1 hv
    unfold replaceVal
    split
    · exact ⟨n, rfl⟩
    · exact ⟨strForm w, rfl⟩
  · exact h

/-- A column-local step with a mask hit stringifies the whole column. -/
theorem stepColVals_allVStr_of_match (o n : String)
    (col : List (Option Value))
    (hm : col.any (fun v => strForm v == o) = true) :
    allVStr (stepColVals o n col) := by
  unfold stepColVals
  rw [if_pos hm]
  intro v hv
  obtain ⟨w, _, rfl⟩ := List.mem_map.1 hv
  unfold replaceVal
  split
  · exact ⟨n, rfl⟩
  · exact ⟨strForm w, rfl⟩

/-- Once stringified, a column stays stringified for the rest of the
run. -/
theorem foldStep_allVStr (ps : List (String × String))
    (col : List (Option Value)) (h : allVStr col) :
    allVStr (ps.foldl (fun c2 p => stepColVals p.1 p.2 c2) col) :=
  pipeFoldlPreserve allVStr _ ps col
    (fun c2 p _ hc2 => stepColVals_allVStr_pres p.1 p.2 c2 hc2) h

/-- A string cell whose content is no remaining source is never rewritten
by the rest of the run. -/
theorem foldStep_cell_stable (ps : List (String × String)) :
    ∀ (col : List (Option Value)) (k : Nat) (s : String),
      k < col.length → col.getD k none = some (Value.vStr s) →
      (∀ p ∈ ps, s ≠ p.1) →
      (ps.foldl (fun c2 p => stepColVals p.1 p.2 c2) col).getD k none =
        some (Value.vStr s) := by
  induction ps with
  | nil => intro col k s _ h _; exact h
  | cons p rest ih =>
    intro col k s hk hc hs
    rw [List.foldl_cons]
    apply ih _ k s (by rw [stepColVals_length]; exact hk)
    · unfold stepColVals
      split
      · rw [List.getD_eq_getElem _ _ (by simpa using hk), List.getElem_map,
          ← List.getD_eq_getElem _ none hk, hc]
        unfold replaceVal
        rw [if_neg (fun hb =>
          hs p (List.mem_cons_self _ _) (by simpa using eq_of_beq hb))]
        rfl
      · exact hc
    · exact fun q hq => hs q (List.mem_cons_of_mem _ hq)

/-- If some pair's source occurs in the column, the run stringifies every
cell of it. -/
theorem foldStep_allVStr_of_exists (ps : List (String × String)) :
    ∀ col : List (Option Value),
      (∃ p ∈ ps, ∃ v ∈ col, strForm v = p.1) →
      allVStr (ps.foldl (fun c2 p => stepColVals p.1 p.2 c2) col) := by
  induction ps with
  | nil =>
    intro col h
    obtain ⟨p, hp, _⟩ := h
    cases hp
  | cons p rest ih =>
    intro col h
    rw [List.foldl_cons]
    by_cases hm : col.any (fun v => strForm v == p.1) = true
    · exact foldStep_allVStr rest _ (stepColVals_allVStr_of_match p.1 p.2 col hm)
    · have hcol : stepColVals p.1 p.2 col = col := by
        unfold stepColVals
        rw [if_neg hm]
      rw [hcol]
      apply ih
      obtain ⟨q, hq, v, hv, hsv⟩ := h
      rcases List.mem_cons.1 hq with heq | hqr
      · subst heq
        exfalso
        apply hm
        rw [List.any_eq_true]
        exact ⟨v, hv, beq_iff_eq.mpr hsv⟩
      · exact ⟨q, hqr, v, hv, hsv⟩

/-- A cell matching no source, in a column where some source occurs, ends
the run as the string cell of its own string form. -/
theorem foldStep_cell_coerced (ps : List (String × String)) :
    ∀ (col : List (Option Value)) (k : Nat), k < col.length →
      (∃ p ∈ ps, ∃ v ∈ col, strForm v = p.1) →
      (∀ p ∈ ps, strForm (col.getD k none) ≠ p.1) →
      (ps.foldl (fun c2 p => stepColVals p.1 p.2 c2) col).getD k none =
        some (Value.vStr (strForm (col.getD k none))) := by
  induction ps with
  | nil =>
    intro col k _ h
    obtain ⟨p, hp, _⟩ := h
    cases hp
  | cons p rest ih =>
    intro col k hk hex hnm
    rw [List.foldl_cons]
    by_cases hm : col.any (fun v => strForm v == p.1) = true
    · have hcell : (stepColVals p.1 p.2 col).getD k none =
          some (Value.vStr (strForm (col.getD k none))) := by
        unfold stepColVals
        rw [if_pos hm, List.getD_eq_getElem _ _ (by simpa using hk),
          List.getElem_map, ← List.getD_eq_getElem _ none hk]
        unfold replaceVal
        rw [if_neg (fun hb =>
          hnm p (List.mem_cons_self _ _) (eq_of_beq hb))]
      exact foldStep_cell_stable rest _ k _
        (by rw [stepColVals_length]; exact hk) hcell
        (fun q hq => hnm q (List.mem_cons_of_mem _ hq))
    · have hcol : stepColVals p.1 p.2 col = col := by
        unfold stepColVals
        rw [if_neg hm]
      rw [hcol]
      apply ih col k hk
      · obtain ⟨q, hq, v, hv, hsv⟩ := hex
        rcases List.mem_cons.1 hq with heq | hqr
        · subst heq
          exfalso
          apply hm
          rw [List.any_eq_true]
          exact ⟨v, hv, beq_iff_eq.mpr hsv⟩
        · exact ⟨q, hqr, v, hv, hsv⟩
      · exact fun q hq => hnm q (List.mem_cons_of_mem _ hq)

/-- A column in which no source of the run ever occurs is returned
literally unchanged (no stringification either). -/
theorem foldStep_untouched (ps : List (String × String)) :
    ∀ col : List (Option Value),
      (∀ p ∈ ps, ∀ v ∈ col, strForm v ≠ p.1) →
      ps.foldl (fun c2 p => stepColVals p.1 p.2 c2) col = col := by
  induction ps with
  | nil => intro col _; rfl
  | cons p rest ih =>
    intro col h
    rw [List.foldl_cons]
    have hcol : stepColVals p.1 p.2 col = col := by
      unfold stepColVals
      rw [if_neg (fun hm => by
        obtain ⟨v, hv, hb⟩ := List.any_eq_true.1 hm
        exact h p (List.mem_cons_self _ _) v hv (eq_of_beq hb))]
    rw [hcol]
    exact ih col (fun q hq => h q (List.mem_cons_of_mem _ hq))

/-- C10: whole-column string coercion.  For a key column `c` of a table
with duplicate-free column labels (as `read_excel` guarantees, since it
mangles duplicate headers), resolved at index `i`: when at least one of
its cells matches some pair's source, every cell of that column in the
engine's output is a string cell, and a cell matching no pair ends as the
string cell of its own string form (numeric 999 becomes "999"); when no
pair ever matches the column, it keeps its original values and value
kinds verbatim. -/
theorem c10_column_coercion (t : Table) (pairs : List (String × String))
    (c : String) (i : Nat) (hnd : t.cols.Nodup) (hc : c ∈ keyColumns t)
    (hidx : t.cols.findIdx? (fun x => x == c) = some i) :
    ((∃ p ∈ pairs, ∃ v ∈ colAt t i, strForm v = p.1) →
        (∀ v ∈ colAt (substitute t pairs).1 i, ∃ s, v = some (Value.vStr s)) ∧
        (∀ k, k < (colAt t i).length →
          (∀ p ∈ pairs, strForm ((colAt t i).getD k none) ≠ p.1) →
          (colAt (substitute t pairs).1 i).getD k none =
            some (Value.vStr (strForm ((colAt t i).getD k none))))) ∧
      ((∀ p ∈ pairs, ∀ v ∈ colAt t i, strForm v ≠ p.1) →
        colAt (substitute t pairs).1 i = colAt t i) := by
  have hdecomp := substitute_colAt_decomp t pairs c i
    (hnd.filter _) hc hidx
  constructor
  · intro hex
    constructor
    · rw [hdecomp]
      exact foldStep_allVStr_of_exists pairs _ hex
    · intro k hk hnm
      rw [hdecomp]
      exact foldStep_cell_coerced pairs _ k hk hex hnm
  · intro hall
    rw [hdecomp]
    exact foldStep_untouched pairs _ hall

/-- Witness for C10: a key column ["100", 999] with pair ("100", "200"):
the match on "100" stringifies the column, the numeric 999 ends as the
string "999". -/
theorem c10_column_coercion_witness :
    ((⟨["KeyModel"], [[vS "100", some (Value.vInt 999)]]⟩ : Table).cols.Nodup ∧
        "KeyModel" ∈ keyColumns ⟨["KeyModel"], [[vS "100", some (Value.vInt 999)]]⟩ ∧
        (⟨["KeyModel"], [[vS "100", some (Value.vInt 999)]]⟩ : Table).cols.findIdx?
          (fun x => x == "KeyModel") = some 0) ∧
      (((∃ p ∈ [("100", "200")],
            ∃ v ∈ colAt ⟨["KeyModel"], [[vS "100", some (Value.vInt 999)]]⟩ 0,
              strForm v = Prod.fst p) →
          (∀ v ∈ colAt (substitute
              ⟨["KeyModel"], [[vS "100", some (Value.vInt 999)]]⟩
              [("100", "200")]).1 0, ∃ s, v = some (Value.vStr s)) ∧
          (∀ k, k < (colAt ⟨["KeyModel"], [[vS "100", some (Value.vInt 999)]]⟩ 0).length →
            (∀ p ∈ [("100", "200")],
              strForm ((colAt ⟨["KeyModel"], [[vS "100", some (Value.vInt 999)]]⟩ 0).getD k none)
                ≠ Prod.fst p) →
            (colAt (substitute ⟨["KeyModel"], [[vS "100", some (Value.vInt 999)]]⟩
                [("100", "200")]).1 0).getD k none =
              some (Value.vStr (strForm ((colAt
                ⟨["KeyModel"], [[vS "100", some (Value.vInt 999)]]⟩ 0).getD k none))))) ∧
        ((∀ p ∈ [("100", "200")],
            ∀ v ∈ colAt ⟨["KeyModel"], [[vS "100", some (Value.vInt 999)]]⟩ 0,
              strForm v ≠ Prod.fst p) →
          colAt (substitute ⟨["KeyModel"], [[vS "100", some (Value.vInt 999)]]⟩
              [("100", "200")]).1 0 =
            colAt ⟨["KeyModel"], [[vS "100", some (Value.vInt 999)]]⟩ 0)) :=
  ⟨⟨by decide, by decide, by decide⟩,
    c10_column_coercion ⟨["KeyModel"], [[vS "100", some (Value.vInt 999)]]⟩
      [("100", "200")] "KeyModel" 0 (by decide) (by decide) (by decide)⟩
